import Mathlib

/-!
Shallow embedding of the godevwatch development proxy (Go) used to check the
frozen claims against the source.  Pure functions are translated directly;
stateful components (watcher, build tracker, reload bus) are embedded as
explicit state-passing functions or as small transition systems whose atomic
steps correspond to the mutex-protected critical sections of the source.
Filesystem and timer effects are parametrised by their observable inputs
(directory-walk entries, trigger times, process exit statuses).

Go strings are byte strings; they are modelled as `List Char` (the source
only ever handles ASCII pattern and path data), written `Str` below, so
that every operation is a computable structural recursion the kernel can
evaluate.  Where a Go library routine scans for a multi-character substring
the recursion is driven by an explicit fuel argument that strictly exceeds
the number of scanning steps (each step consumes at least one character),
so the fuel is never exhausted on any input.
-/

namespace Godevwatch

/-- Go strings, modelled byte-for-byte as character lists. -/
abbrev Str := List Char

/-!
Build executor outcome (src/unnamed/part_005, `runBuildProcess`, lines 325-368).

A child process on Unix terminates either by calling exit (WIFEXITED, with an
exit status) or by a signal (WIFSIGNALED).  The Go accessors used by the
source are modelled faithfully:
* `os.ProcessState.Exited()` is true only for a normal exit, false for a
  signal-terminated process;
* `exec.ExitError.ExitCode()` is the exit status for a normal exit and -1
  for a signal-terminated process;
* `syscall.WaitStatus.Signal()` is the terminating signal, or -1 when the
  process was not signaled.
`cmd.Run()` returns a non-nil error exactly when the process exited with a
non-zero status or was terminated by a signal (an `*exec.ExitError`).
-/

/-- Exit status of the build child process, as observed by `cmd.Run()`. -/
inductive ProcExit where
  | exited (code : Nat)
  | signaled (sig : Nat)
deriving DecidableEq, Repr

/-- Signal number of SIGKILL on Unix. -/
def sigkillNum : Nat := 9

/-- Signal number of SIGTERM on Unix. -/
def sigtermNum : Nat := 15

/-- Model of `os.ProcessState.Exited()`. -/
def psExited : ProcExit → Bool
  | .exited _ => true
  | .signaled _ => false

/-- Model of `exec.ExitError.ExitCode()`. -/
def psExitCode : ProcExit → Int
  | .exited c => (c : Int)
  | .signaled _ => -1

/-- Model of `(ProcessState.Sys().(syscall.WaitStatus)).Signal()`. -/
def psSignal : ProcExit → Int
  | .exited _ => -1
  | .signaled s => (s : Int)

/-- Model of `cmd.Run() != nil`: an error is returned for a non-zero exit or
a signal-terminated process. -/
def runErr : ProcExit → Bool
  | .exited 0 => false
  | .exited (_ + 1) => true
  | .signaled _ => true

/-- The tracker call `runBuildProcess` performs after the child exits. -/
inductive TrackerCall where
  | fail
  | complete
deriving DecidableEq, Repr

/-- Transcription of the marker decision in `runBuildProcess`
(src/unnamed/part_005:334-362): on a run error, the abort branch is entered
only when `ProcessState.Exited()` holds and the exit code is -1 or the
terminating signal was SIGKILL or SIGTERM; the abort branch returns without
any tracker call (`none`), every other error path calls `Tracker.Fail`, and
the no-error path calls `Tracker.Complete`. -/
def runBuildProcessMarker (ps : ProcExit) : Option TrackerCall :=
  if runErr ps then
    if psExited ps ∧
        (psExitCode ps = -1 ∨ psSignal ps = (sigkillNum : Int) ∨
          psSignal ps = (sigtermNum : Int)) then
      none
    else
      some TrackerCall.fail
  else
    some TrackerCall.complete

/-!
Graceful-shutdown cleanup (src/internal/proxy/proxy.go, `Start`, lines
259-278).  After the watcher context is cancelled the code kills the backend
process when one is present and then calls `os.RemoveAll(cfg.BuildStatusDir)`
unconditionally; `cfg.DebugMode` is not consulted anywhere on this path.
-/

/-- One observable step of the shutdown sequence in `proxy.Start`. -/
inductive ShutdownStep where
  | cancelWatcher
  | stopBackend
  | removeStatusDir
deriving DecidableEq, Repr

/-- The shutdown steps executed by `proxy.Start` (proxy.go:259-278), as a
function of the debug flag and of whether a backend child is running.  The
source performs `os.RemoveAll` on the build-status directory with no debug
guard, so `debugMode` does not influence the result. -/
def shutdownSteps (debugMode : Bool) (backendRunning : Bool) : List ShutdownStep :=
  [ShutdownStep.cancelWatcher]
    ++ (if backendRunning then [ShutdownStep.stopBackend] else [])
    ++ [ShutdownStep.removeStatusDir]

/-!
Reload bus (src/internal/health/monitor.go:156-172) and the SSE handler for
GET /__reload (src/internal/proxy/proxy.go:146-171).  Subscriber channels are
identified by numbers; the subscriber set `m.reloadClients` is a map whose
keys we model as a duplicate-free list.
-/

/-- Model of `Monitor.AddReloadClient` (monitor.go:157-165): insert the
channel into the `reloadClients` map. -/
def addReloadClient (clients : List Nat) (c : Nat) : List Nat :=
  if c ∈ clients then clients else clients ++ [c]

/-- Model of `Monitor.RemoveReloadClient` (monitor.go:168-172): delete the
channel from the `reloadClients` map.  The source defines this method but no
caller of it exists anywhere in the repository. -/
def removeReloadClient (clients : List Nat) (c : Nat) : List Nat :=
  clients.filter (fun x => x ≠ c)

/-- The monitor operations performed by one full connect-then-disconnect
session of the GET /__reload handler (proxy.go:146-171). -/
inductive ReloadHandlerStep where
  | register
  | deferredCleanup
deriving DecidableEq, Repr

/-- The handler's lifecycle: it calls `monitor.AddReloadClient()` on connect
(proxy.go:154) and on disconnect (`r.Context().Done()`, proxy.go:167-168) it
returns, running a deferred function whose body is empty apart from a comment
(proxy.go:155-157).  No `RemoveReloadClient` call occurs. -/
def reloadHandlerLifecycle : List ReloadHandlerStep :=
  [ReloadHandlerStep.register, ReloadHandlerStep.deferredCleanup]

/-- Effect of one handler lifecycle step on the subscriber set.  The
deferred cleanup function contains only a comment, so it leaves the set
unchanged. -/
def applyHandlerStep (clients : List Nat) (c : Nat) : ReloadHandlerStep → List Nat
  | ReloadHandlerStep.register => addReloadClient clients c
  | ReloadHandlerStep.deferredCleanup => clients

/-- The monitor's subscriber set after an SSE client with channel `c`
connects to GET /__reload and later disconnects. -/
def clientsAfterSession (clients : List Nat) (c : Nat) : List Nat :=
  reloadHandlerLifecycle.foldl (fun s st => applyHandlerStep s c st) clients

/-!
Per-rule build execution (src/unnamed/part_005).  Rules are independent
(`runningBuilds` is keyed by rule name), so one rule is modelled.  Builds
are numbered in creation order.  The atomic transitions are exactly the
mutex-protected critical sections of the source plus the two suspension
points of the build goroutine:

* `trigger` is the whole body of `executeBuild` (lines 282-322), which runs
  under `w.mu`: if `w.runningBuilds[rule.Name]` is occupied, `abortBuild`
  (lines 371-388) cancels the old build's context, kills its process if
  still running, and marks it aborted; then the new build is registered in
  the map and its goroutine spawned.
* `runStart b` is `rb.Process.Run()` beginning to execute in the goroutine
  (line 334), outside any lock; a build whose context was already cancelled
  never gets a live child process and its `Run` returns at once.
* `procExit b` is the live child process of `b` terminating on its own.
* `cleanup b` is the deferred function of `runBuildProcess` (lines 326-331),
  which takes `w.mu` and performs `delete(w.runningBuilds, rb.Rule.Name)` -
  keyed by the rule name only, irrespective of whether the map entry still
  denotes build `b`.
-/

/-- State of the executor for a single rule. -/
structure ExecState where
  /-- `w.runningBuilds[rule.Name]` (the registered build id, if any). -/
  runningBuild : Option Nat
  /-- builds whose goroutine was spawned but whose `Run` has not begun. -/
  spawned : List Nat
  /-- builds whose child process is currently executing. -/
  live : List Nat
  /-- builds whose `Run` has returned but whose deferred cleanup has not run. -/
  pending : List Nat
  /-- builds whose context was cancelled / process killed by `abortBuild`. -/
  killed : List Nat
  /-- next build id. -/
  nextId : Nat
deriving DecidableEq, Repr

/-- The executor state before any build was triggered. -/
def execInit : ExecState :=
  { runningBuild := none, spawned := [], live := [], pending := [], killed := [], nextId := 0 }

/-- Events of the per-rule executor transition system. -/
inductive ExecEv where
  | trigger
  | runStart (b : Nat)
  | procExit (b : Nat)
  | cleanup (b : Nat)
deriving DecidableEq, Repr

/-- One atomic step of the executor; `none` when the event is not enabled in
the given state. -/
def execStep (s : ExecState) : ExecEv → Option ExecState
  | ExecEv.trigger =>
    let s1 := match s.runningBuild with
      | none => s
      | some old =>
        { s with live := s.live.erase old,
                 pending := if old ∈ s.live then s.pending ++ [old] else s.pending,
                 killed := s.killed ++ [old] }
    some { s1 with runningBuild := some s.nextId,
                   spawned := s1.spawned ++ [s.nextId],
                   nextId := s.nextId + 1 }
  | ExecEv.runStart b =>
    if b ∈ s.spawned then
      if b ∈ s.killed then
        some { s with spawned := s.spawned.erase b, pending := s.pending ++ [b] }
      else
        some { s with spawned := s.spawned.erase b, live := s.live ++ [b] }
    else none
  | ExecEv.procExit b =>
    if b ∈ s.live then
      some { s with live := s.live.erase b, pending := s.pending ++ [b] }
    else none
  | ExecEv.cleanup b =>
    if b ∈ s.pending then
      some { s with pending := s.pending.erase b, runningBuild := none }
    else none

/-- Run a sequence of executor events from the initial state. -/
def execRun (evs : List ExecEv) : Option ExecState :=
  evs.foldlM execStep execInit

/-- An interleaving in which a finished build's deferred cleanup deletes the
map entry of its replacement, so a third trigger starts a build without
aborting the still-live second one. -/
def execRaceTrace : List ExecEv :=
  [ExecEv.trigger, ExecEv.runStart 0, ExecEv.procExit 0,
   ExecEv.trigger, ExecEv.cleanup 0,
   ExecEv.runStart 1, ExecEv.trigger, ExecEv.runStart 2]

/-!
Debouncer (src/unnamed/part_005, `debounceBuild`, lines 266-279, with
`w.debounceDelay = 100ms` set in `NewWatcher`, line 60).  Per rule name the
code stops the pending `time.Timer` (if any) and schedules a fresh
`time.AfterFunc(delay, executeBuild)`.  Timer semantics: a timer scheduled
at trigger time `t` fires at `t + delay`; `Stop` at a later trigger time
`u` cancels it exactly when `u < t + delay` (otherwise it has already
fired; the source ignores `Stop`'s return value).
-/

/-- The debounce delay in milliseconds (part_005:60). -/
def debounceDelayMs : Nat := 100

/-- Fire times of the per-rule debounce timer for a chronologically ordered
list of trigger times: the timer set at `t1` survives (fires at
`t1 + delay`) exactly when the next trigger arrives no earlier than
`t1 + delay`; the final trigger's timer always fires. -/
def debounceFires (delay : Nat) : List Nat → List Nat
  | [] => []
  | [t] => [t + delay]
  | t1 :: t2 :: rest =>
    (if t1 + delay ≤ t2 then [t1 + delay] else []) ++ debounceFires delay (t2 :: rest)

/-!
String helpers modelling the Go standard-library routines the source calls,
on `Str`.  Single-character splits are structural; substring scans carry a
fuel that strictly exceeds the number of steps.
-/

/-- Model of `strings.HasPrefix`. -/
def hasPre (s pre : Str) : Bool := pre.isPrefixOf s

/-- Model of `strings.HasSuffix`. -/
def hasSuf (s suf : Str) : Bool := suf.isSuffixOf s

/-- Model of `strings.TrimPrefix`: drop the prefix when present, otherwise
return the string unchanged. -/
def goTrimPre (s pre : Str) : Str :=
  if hasPre s pre then s.drop pre.length else s

/-- Model of `strings.TrimSuffix`: drop the suffix when present, otherwise
return the string unchanged. -/
def goTrimSuf (s suf : Str) : Str :=
  if hasSuf s suf then s.take (s.length - suf.length) else s

/-- Split on a single character, the shape of every `strings.Split` call of
the source whose separator has length one (`"\n"`, `"/"`, `"-"`). -/
def splitChar (sep : Char) : Str → List Str
  | [] => [[]]
  | c :: rest =>
    if c = sep then [] :: splitChar sep rest
    else
      match splitChar sep rest with
      | [] => [[c]]
      | l :: ls => (c :: l) :: ls

/-- Fueled worker for `strings.Split` with a non-empty separator: cut at
each leftmost non-overlapping occurrence.  Each step consumes at least one
character, so fuel `s.length + 1` is never exhausted. -/
def splitOnF (sub : Str) : Nat → Str → List Str
  | 0, s => [s]
  | _ + 1, [] => [[]]
  | fuel + 1, c :: rest =>
    if hasPre (c :: rest) sub then
      [] :: splitOnF sub fuel ((c :: rest).drop sub.length)
    else
      match splitOnF sub fuel rest with
      | [] => [[c]]
      | l :: ls => (c :: l) :: ls

/-- Model of `strings.Split` (the source only calls it with non-empty
separators; `strings.Split(s, "")` does not occur). -/
def splitOnStr (s sub : Str) : List Str :=
  if sub = [] then [s] else splitOnF sub (s.length + 1) s

/-- Model of `strings.Contains`: the empty substring is contained in every
string; otherwise `strings.Split` produces at least two parts exactly when
the substring occurs. -/
def goContains (s sub : Str) : Bool :=
  sub = ([] : Str) || 2 ≤ (splitOnStr s sub).length

/-- Fueled worker for `strings.ReplaceAll` with a non-empty pattern. -/
def replaceF (sub rep : Str) : Nat → Str → Str
  | 0, s => s
  | _ + 1, [] => []
  | fuel + 1, c :: rest =>
    if hasPre (c :: rest) sub then
      rep ++ replaceF sub rep fuel ((c :: rest).drop sub.length)
    else
      c :: replaceF sub rep fuel rest

/-- Model of `strings.ReplaceAll` (the source only calls it with the
non-empty pattern `"**/"`). -/
def replaceAllStr (s sub rep : Str) : Str :=
  if sub = [] then s else replaceF sub rep (s.length + 1) s

/-- Join a list of strings with a separator (`strings.Join`). -/
def intercalateStr (sep : Str) : List Str → Str
  | [] => []
  | [x] => x
  | x :: xs => x ++ sep ++ intercalateStr sep xs

/-!
Path helpers modelling `path/filepath` on Unix (forward-slash paths), the
platform the source targets (`sh -c`, POSIX signal handling).
-/

/-- Model of `filepath.Clean` on Unix, by its specification: resolve `.`
and `..` elements, drop repeated and trailing separators, return `.` for an
empty result. -/
def cleanPath (p : Str) : Str :=
  if p = [] then ['.'] else
  let rooted := hasPre p ['/']
  let comps := splitChar '/' p
  let out := comps.foldl
    (fun (acc : List Str) seg =>
      if seg = [] ∨ seg = ['.'] then acc
      else if seg = ['.', '.'] then
        match acc with
        | [] => if rooted then [] else [seg]
        | a :: rest => if a = ['.', '.'] then seg :: acc else rest
      else seg :: acc)
    ([] : List Str)
  let body := intercalateStr ['/'] out.reverse
  if rooted then (if body = [] then ['/'] else '/' :: body)
  else if body = [] then ['.'] else body

/-- Model of `filepath.Join`: empty elements are ignored; the rest is
joined with `/` and cleaned; all-empty input gives the empty string. -/
def joinPath (elems : List Str) : Str :=
  let ne := elems.filter (fun e => e ≠ [])
  if ne = [] then [] else cleanPath (intercalateStr ['/'] ne)

/-- Model of `filepath.Base`: strip trailing slashes, keep the part after
the last slash; empty input gives `.`, an all-slash input gives `/`. -/
def baseName (p : Str) : Str :=
  if p = [] then ['.'] else
  let cs := (p.reverse.dropWhile (fun c => c = '/')).reverse
  let last := (cs.reverse.takeWhile (fun c => c ≠ '/')).reverse
  if last = [] then ['/'] else last

/-- Model of `filepath.Dir`: everything up to and including the final
slash, cleaned; no slash gives `.`. -/
def dirPath (p : Str) : Str :=
  cleanPath ((p.reverse.dropWhile (fun c => c ≠ '/')).reverse)

/-- Model of `strconv.ParseInt(s, 10, 64)`: optional sign, one or more
decimal digits, value within the signed 64-bit range; anything else is an
error (`none`). -/
def parseInt64 (s : Str) : Option Int :=
  match s with
  | [] => none
  | cs =>
    let (neg, ds) :=
      match cs with
      | '+' :: t => (false, t)
      | '-' :: t => (true, t)
      | t => (false, t)
    if ds = [] then none
    else
      match ds.foldlM (fun acc c =>
          if '0' ≤ c ∧ c ≤ '9' then some (acc * 10 + (c.toNat - '0'.toNat)) else none) 0 with
      | none => none
      | some n =>
        let v : Int := if neg then -(n : Int) else (n : Int)
        if -(2 ^ 63) ≤ v ∧ v ≤ 2 ^ 63 - 1 then some v else none

/-!
Model of `path/filepath.Match` on Unix.  `goMatch` follows the documented
glob grammar the implementation realises: `*` matches any run of
non-separator characters, `?` one non-separator character, `[...]` a
character class (optionally negated with `^`, ranges written `lo-hi`,
elements may be backslash-escaped, and the class must be non-empty and
closed), `\\c` the literal character `c`, and any other character itself;
the whole name must be consumed.  A malformed pattern yields `none`,
matching `Match`'s `ErrBadPattern`; the source only ever uses
`err == nil && matched`, which is `goMatchB`.
-/

/-- The path separator test (Unix). -/
def isSep (c : Char) : Bool := c = '/'

/-- Model of `getEsc` in filepath/match.go: read one class element
(possibly backslash-escaped); fails on an empty chunk, a leading `-` or
`]`, a dangling backslash, or when nothing follows the element (the class
is then unclosed). -/
def getEsc (l : Str) : Option (Char × Str) :=
  match l with
  | [] => none
  | a :: t =>
    if a = '-' ∨ a = ']' then none
    else if a = '\\' then
      match t with
      | [] => none
      | b :: u => if u = [] then none else some (b, u)
    else if t = [] then none else some (a, t)

/-- Fueled model of the character-class loop of `matchChunk` in
filepath/match.go: scan ranges until the closing `]` (which only closes
after at least one range), accumulating whether the probed character `r`
falls in some range; returns the accumulated result and the chunk after
`]`.  Every step consumes at least one character of the chunk
(`getEsc_length_lt`), so fuel `chunk.length + 1` is never exhausted. -/
def classRangesF (r : Char) : Nat → Str → Nat → Bool → Option (Bool × Str)
  | 0, _, _, _ => none
  | fuel + 1, chunk, n, m =>
    if chunk.head? = some ']' ∧ 0 < n then
      some (m, chunk.tail)
    else
      match getEsc chunk with
      | none => none
      | some (lo, c1) =>
        if c1.head? = some '-' then
          match getEsc c1.tail with
          | none => none
          | some (hi, c2) =>
            classRangesF r fuel c2 (n + 1) (m || (decide (lo ≤ r) && decide (r ≤ hi)))
        else
          classRangesF r fuel c1 (n + 1) (m || (decide (lo ≤ r) && decide (r ≤ lo)))

/-- The class scanner at its adequate fuel. -/
def classRanges (r : Char) (chunk : Str) (n : Nat) (m : Bool) : Option (Bool × Str) :=
  classRangesF r (chunk.length + 1) chunk n m

/-- Fueled model of `filepath.Match pattern name` (Bool-equivalent to the
Go implementation; error-reporting corner cases that the source collapses
through `err == nil && matched` are all `none` here).  Every recursive call
strictly decreases `pat.length + name.length` (a class consumes at least
two pattern characters, a star alternative consumes one name character), so
fuel `pat.length + name.length + 1` is never exhausted. -/
def goMatchF : Nat → Str → Str → Option Bool
  | 0, _, _ => none
  | fuel + 1, pat, name =>
    match pat, name with
    | [], [] => some true
    | [], _ :: _ => some false
    | '*' :: ps, nm =>
      match goMatchF fuel ps nm with
      | none => none
      | some true => some true
      | some false =>
        match nm with
        | [] => some false
        | c :: cs => if isSep c then some false else goMatchF fuel ('*' :: ps) cs
    | '?' :: _, [] => some false
    | '?' :: ps, c :: cs => if isSep c then some false else goMatchF fuel ps cs
    | '\\' :: ps, nm =>
      match ps with
      | [] => none
      | c :: ps' =>
        match nm with
        | [] => some false
        | d :: ds => if c = d then goMatchF fuel ps' ds else some false
    | '[' :: ps, nm =>
      let (negated, ps1) :=
        match ps with
        | '^' :: t => (true, t)
        | _ => (false, ps)
      match nm with
      | [] =>
        match classRanges '\x00' ps1 0 false with
        | none => none
        | some _ => some false
      | d :: ds =>
        match classRanges d ps1 0 false with
        | none => none
        | some (mtc, rest) =>
          if mtc ≠ negated then goMatchF fuel rest ds else some false
    | c :: ps, [] =>
      match c, ps with
      | _, _ => some false
    | c :: ps, d :: ds => if c = d then goMatchF fuel ps ds else some false

/-- `filepath.Match` at its adequate fuel. -/
def goMatch (pat name : Str) : Option Bool :=
  goMatchF (pat.length + name.length + 1) pat name

/-- `err == nil && matched`, the way every call site of `filepath.Match` in
the source consumes its result. -/
def goMatchB (pat s : Str) : Bool :=
  (goMatch pat s).getD false

/-- Transcription of `matchesPattern` (src/unnamed/part_005:207-263).
`string(filepath.Separator)` is `/` on the targeted platform. -/
def matchesPattern (path pattern : Str) : Bool :=
  if goContains pattern ("**").toList then
    let parts := splitOnStr pattern ("**/").toList
    if parts.length = 1 then
      let pre := goTrimSuf (parts.headD []) ("**").toList
      hasPre path pre
    else if parts.length = 2 then
      let pre := parts.headD []
      let suf := parts.getD 1 []
      if pre ≠ [] ∧ ¬ hasPre path pre then false
      else
        let pathToCheck := if pre ≠ [] then goTrimPre (goTrimPre path pre) ['/'] else path
        if suf = [] then true
        else
          let pathParts := splitChar '/' pathToCheck
          if (List.range pathParts.length).any
              (fun i => goMatchB suf (joinPath (pathParts.drop i))) then true
          else goMatchB suf pathToCheck
    else
      goMatchB (replaceAllStr pattern ("**/").toList []) (baseName path)
  else
    goMatchB pattern path

/-!
Directory discovery (src/unnamed/part_005, `getDirectoriesToWatch`, lines
128-159).  The `filepath.WalkDir(".", ...)` traversal is abstracted by the
list of entries it visits in order (relative paths, the root `.` first);
the error parameter is nil on the success path modelled here.
-/

/-- One entry visited by `filepath.WalkDir`. -/
structure WalkEntry where
  path : Str
  isDir : Bool
deriving DecidableEq, Repr

/-- Transcription of `getDirectoriesToWatch` on the non-error path: for a
pattern containing `**`, the current directory plus every visited directory
whose path does not begin with `.git`; otherwise the directory component of
the pattern (`.` when that is `.` or empty). -/
def getDirectoriesToWatch (walk : List WalkEntry) (pattern : Str) : List Str :=
  if goContains pattern ("**").toList then
    ['.'] :: (walk.filter (fun e => e.isDir && !(hasPre e.path (".git").toList))).map
      (fun e => e.path)
  else
    let dir := dirPath pattern
    if dir = ['.'] ∨ dir = [] then [['.']] else [dir]

/-!
Line-prefixing writer (src/internal/logger/logger.go, `PrefixWriter.Write`,
lines 60-86).  Bytes are modelled as characters; the underlying sink is
modelled by returning the list of strings written to it, in order (the
sink never fails).
-/

/-- Model of `strings.Split(s, "\n")` as used by `PrefixWriter.Write`. -/
def splitNl : Str → List Str := splitChar '\n'

/-- Model of `strings.HasSuffix(s, "\n")`. -/
def endsNl (l : Str) : Bool := l.getLast? = some '\n'

/-- The `PrefixWriter` state: the line prefix and the buffered tail of an
unterminated line. -/
structure PrefixWriter where
  pre : Str
  buffer : Str
deriving DecidableEq, Repr

/-- Transcription of `PrefixWriter.Write`: append `p` to the buffer, split
on newlines, keep an unterminated final part as the new buffer, and emit
`prefix ++ line ++ "\n"` for every remaining part that is nonempty or -
when `p` itself ends in a newline - even empty.  Returns the new state and
the strings written to the sink, in order. -/
def pwWrite (pw : PrefixWriter) (p : Str) : PrefixWriter × List Str :=
  let buf := pw.buffer ++ p
  let lines := splitNl buf
  let (buffer', lines') :=
    if 0 < lines.length ∧ ¬ endsNl buf then (lines.getLastD [], lines.dropLast)
    else (([] : Str), lines)
  let emitted :=
    (lines'.filter (fun line => decide (line ≠ []) || endsNl p)).map
      (fun line => pw.pre ++ line ++ ['\n'])
  ({ pw with buffer := buffer' }, emitted)

/-!
Build-status tracker (src/unnamed/part_006, first `package build` variant,
lines 121-247; this is the variant the repository links: its
`NewTracker(statusDir, debugMode)` signature and its `Abort` method are the
ones called from `internal/build/builder.go` and from the watcher).  The
status directory is modelled as an association list of file name/content
pairs; `os.WriteFile` creates the file or truncates an existing one.
-/

/-- The status directory: file names with their contents, in creation
order. -/
abbrev StatusDir := List (Str × Str)

/-- The file names present in a status directory. -/
def fileNames (d : StatusDir) : List Str := d.map Prod.fst

/-- Model of `os.WriteFile`: overwrite the contents when the name exists,
otherwise append a new file. -/
def writeFile (d : StatusDir) (name content : Str) : StatusDir :=
  if name ∈ fileNames d then
    d.map (fun f => if f.1 = name then (name, content) else f)
  else
    d ++ [(name, content)]

/-- Marker file name `<ts>-<build_id>-<status>` (part_006:176,189,214,232). -/
def markerName (ts : Int) (bid st : Str) : Str :=
  (toString ts).toList ++ ['-'] ++ bid ++ ['-'] ++ st

/-- `Tracker.Start` (part_006:157-183): overwrite `current-build-id`, then
create the building marker stamped with the start timestamp.  (`MkdirAll`
is implicit in the directory model.) -/
def trackerStart (d : StatusDir) (ts : Int) (bid : Str) : StatusDir :=
  writeFile (writeFile d ("current-build-id").toList bid)
    (markerName ts bid ("building").toList) []

/-- `Tracker.Complete` (part_006:186-206): create the success marker with a
fresh timestamp, then overwrite `last-success-build-id`.  Nothing is
removed. -/
def trackerComplete (d : StatusDir) (ts : Int) (bid : Str) : StatusDir :=
  writeFile (writeFile d (markerName ts bid ("success").toList) [])
    ("last-success-build-id").toList bid

/-- `Tracker.Fail` (part_006:209-224): create the failed marker with a
fresh timestamp; the building marker is kept. -/
def trackerFail (d : StatusDir) (ts : Int) (bid : Str) : StatusDir :=
  writeFile d (markerName ts bid ("failed").toList) []

/-- `Tracker.Abort` (part_006:227-242): create the aborted marker with a
fresh timestamp; the building marker is kept. -/
def trackerAbort (d : StatusDir) (ts : Int) (bid : Str) : StatusDir :=
  writeFile d (markerName ts bid ("aborted").toList) []

/-- The three terminal tracker transitions. -/
inductive TerminalOp where
  | complete
  | fail
  | abort
deriving DecidableEq, Repr

/-- Status word appearing in the terminal marker of each transition. -/
def terminalStatus : TerminalOp → Str
  | TerminalOp.complete => ("success").toList
  | TerminalOp.fail => ("failed").toList
  | TerminalOp.abort => ("aborted").toList

/-- Apply a terminal tracker transition to the status directory. -/
def applyTerminal (op : TerminalOp) (d : StatusDir) (ts : Int) (bid : Str) : StatusDir :=
  match op with
  | TerminalOp.complete => trackerComplete d ts bid
  | TerminalOp.fail => trackerFail d ts bid
  | TerminalOp.abort => trackerAbort d ts bid

/-- A file name of the shape of a terminal marker. -/
def isTerminalMarkerName (n : Str) : Bool :=
  hasSuf n ("-success").toList || hasSuf n ("-failed").toList ||
    hasSuf n ("-aborted").toList

/-!
GET /__build-status (src/internal/proxy/proxy.go:29-101).  The walk over
the status directory is abstracted by the list of entries it visits (the
root directory entry included, skipped by the `d.IsDir()` guard);
`encoding/json` marshalling of `BuildStatusResponse` is modelled on the
two shapes that occur: the `omitempty` nil pointer, which omits the
`current_build` field entirely, and a populated `BuildInfo`.
-/

/-- One entry visited while scanning the status directory. -/
structure FileEntry where
  name : Str
  isDir : Bool
deriving DecidableEq, Repr

/-- The `BuildInfo` struct of proxy.go:35-40. -/
structure BuildInfo where
  buildID : Str
  ruleName : Str
  status : Str
  timestamp : Int
deriving DecidableEq, Repr

/-- JSON string quoting (escaping of the quote and backslash characters;
the marker fields never contain control characters). -/
def jsonQuote (s : Str) : Str :=
  '"' :: (s.map (fun c =>
    if c = '"' then ['\\', '"']
    else if c = '\\' then ['\\', '\\']
    else [c])).flatten ++ ['"']

/-- Model of `json.Marshal` on `BuildStatusResponse`: a nil `CurrentBuild`
is omitted by `omitempty`, giving the empty object. -/
def marshalBuildStatus : Option BuildInfo → Str
  | none => ("\x7b\x7d").toList
  | some b =>
    ("\x7b\"current_build\":\x7b\"build_id\":").toList ++ jsonQuote b.buildID ++
      (",\"rule_name\":").toList ++ jsonQuote b.ruleName ++
      (",\"status\":").toList ++ jsonQuote b.status ++
      (",\"timestamp\":").toList ++ (toString b.timestamp).toList ++
      ("\x7d\x7d").toList

/-- The walk callback of `getCurrentBuildStatus` (proxy.go:56-93) for one
entry: directories are skipped; a file name is parsed as
`<ts>-<buildid>-<status>` when it has at least three dash-separated parts,
the two pointer files are skipped by prefix, a non-integer first part is
skipped, and the record with the largest timestamp is kept (first seen
wins ties); the rule name is hard-coded `go-build`. -/
def scanEntry (cur : Option BuildInfo) (e : FileEntry) : Option BuildInfo :=
  if e.isDir then cur
  else
    let parts := splitChar '-' e.name
    if 3 ≤ parts.length then
      if hasPre e.name ("current-build-id").toList ||
          hasPre e.name ("last-success-build-id").toList then
        cur
      else
        match parseInt64 (parts.headD []) with
        | none => cur
        | some ts =>
          let bid := parts.getD 1 []
          let st := intercalateStr ['-'] (parts.drop 2)
          match cur with
          | none =>
            some { buildID := bid, ruleName := ("go-build").toList, status := st, timestamp := ts }
          | some cb =>
            if cb.timestamp < ts then
              some { buildID := bid, ruleName := ("go-build").toList, status := st, timestamp := ts }
            else cur
    else cur

/-- Transcription of `getCurrentBuildStatus` (proxy.go:43-101): when the
status directory does not exist, marshal the empty response; otherwise
scan the directory entries and marshal the most recent record (if any). -/
def getCurrentBuildStatus (dirExists : Bool) (entries : List FileEntry) : Str :=
  if ¬ dirExists then marshalBuildStatus none
  else marshalBuildStatus (entries.foldl scanEntry none)

/-- A directory entry that the scan of `getCurrentBuildStatus` skips: a
directory, a name with fewer than three dash-separated parts, one of the
two pointer files, or a non-integer first part. -/
def entrySkipped (e : FileEntry) : Bool :=
  e.isDir || decide ((splitChar '-' e.name).length < 3) ||
    hasPre e.name ("current-build-id").toList ||
    hasPre e.name ("last-success-build-id").toList ||
    (parseInt64 ((splitChar '-' e.name).headD [])).isNone

/-!
Helper lemmas.
-/

/-- `getEsc` consumes at least one character; this bounds the number of
steps of the class scanner, justifying the fuel of `classRangesF`. -/
theorem getEsc_length_lt {l : Str} {c : Char} {r : Str}
    (h : getEsc l = some (c, r)) : r.length < l.length := by
  cases l with
  | nil => simp [getEsc] at h
  | cons a t =>
    simp only [getEsc] at h
    by_cases h1 : a = '-' ∨ a = ']'
    · simp [h1] at h
    · by_cases h2 : a = '\\'
      · cases t with
        | nil => simp [h1, h2] at h
        | cons b u =>
          by_cases h3 : u = []
          · simp [h1, h2, h3] at h
          · simp [h1, h2, h3] at h
            obtain ⟨rfl, rfl⟩ := h
            simp only [List.length_cons]
            omega
      · by_cases h3 : t = []
        · simp [h1, h2, h3] at h
        · simp [h1, h2, h3] at h
          obtain ⟨rfl, rfl⟩ := h
          simp only [List.length_cons]
          omega

/-- Membership in the file names of a directory after `writeFile`. -/
theorem mem_fileNames_writeFile {d : StatusDir} {n c m : Str} :
    m ∈ fileNames (writeFile d n c) ↔ m ∈ fileNames d ∨ m = n := by
  unfold writeFile
  split_ifs with hc
  · have hmap : fileNames (d.map (fun f => if f.1 = n then (n, c) else f)) = fileNames d := by
      unfold fileNames
      rw [List.map_map]
      refine List.map_congr_left ?_
      intro f _
      by_cases hf : f.1 = n <;> simp [hf]
    rw [hmap]
    constructor
    · exact Or.inl
    · rintro (h | rfl)
      · exact h
      · exact hc
  · unfold fileNames
    simp [List.map_append]

/-- A skipped entry leaves the scan accumulator unchanged. -/
theorem scanEntry_skip (cur : Option BuildInfo) (e : FileEntry)
    (h : entrySkipped e = true) : scanEntry cur e = cur := by
  unfold entrySkipped at h
  simp only [Bool.or_eq_true, decide_eq_true_eq, Option.isNone_iff_eq_none] at h
  unfold scanEntry
  rcases h with ((((hd | hlen) | hcur) | hlast) | hparse)
  · simp [hd]
  · have hn : ¬ (3 ≤ (splitChar '-' e.name).length) := by omega
    simp [hn]
  · simp at hcur
    simp [hcur]
  · simp at hlast
    simp [hlast]
  · simp at hparse
    simp [hparse]

/-- Scanning a directory whose entries are all skipped yields no record. -/
theorem foldl_scanEntry_none (entries : List FileEntry)
    (h : ∀ e ∈ entries, entrySkipped e = true) :
    entries.foldl scanEntry none = none := by
  induction entries with
  | nil => rfl
  | cons e es ih =>
    rw [List.foldl_cons, scanEntry_skip none e (h e (List.mem_cons_self e es))]
    exact ih (fun x hx => h x (List.mem_cons_of_mem e hx))

/-- `splitChar` never produces the empty list. -/
theorem splitChar_ne_nil (sep : Char) (l : Str) : splitChar sep l ≠ [] := by
  cases l with
  | nil => simp [splitChar]
  | cons c rest =>
    by_cases hc : c = sep
    · simp [splitChar, hc]
    · simp only [splitChar, hc, ite_false]
      cases splitChar sep rest <;> simp

/-- The number of parts of a single-character split is the separator count
plus one. -/
theorem splitChar_length (sep : Char) (l : Str) :
    (splitChar sep l).length = l.count sep + 1 := by
  induction l with
  | nil => rfl
  | cons c rest ih =>
    by_cases hc : c = sep
    · simp [splitChar, hc, List.count_cons, ih]
    · simp only [splitChar, hc, ite_false]
      cases hsp : splitChar sep rest with
      | nil => exact absurd hsp (splitChar_ne_nil sep rest)
      | cons l0 ls =>
        rw [hsp] at ih
        simp only [List.length_cons] at ih
        simp [List.count_cons, hc, ih]

/-- Appending to the left preserves a trailing newline. -/
theorem endsNl_append (b p : Str) (h : endsNl p = true) :
    endsNl (b ++ p) = true := by
  unfold endsNl at h ⊢
  rw [decide_eq_true_eq] at h ⊢
  have hp : p ≠ [] := by
    rintro rfl
    simp at h
  rw [List.getLast?_append_of_ne_nil b hp]
  exact h

/-!
Claim theorems.
-/

/-- Claim C1 (refuted by the code, which is the bug): for a build child
terminated by SIGKILL, `runBuildProcess` performs `Tracker.Fail` and so
writes a failed marker.  `ProcessState.Exited()` is false for a
signal-terminated process, so the guard at part_005:338 skips the whole
abort-detection block and the kill falls through to the genuine-failure
path; the claim (and the source's own comments, part_005:337-344) say a
killed build must not be marked failed. -/
theorem C1_killed_build_marked_failed :
    runBuildProcessMarker (ProcExit.signaled sigkillNum) = some TrackerCall.fail ∧
    runBuildProcessMarker (ProcExit.signaled sigtermNum) = some TrackerCall.fail := by
  decide

/-- Claim C2 (refuted by the code, which is the bug): the deferred cleanup
of a finished build deletes `runningBuilds[rule.Name]` by rule name only,
so it can erase the registration of its replacement; a subsequent trigger
then finds no running build and starts a third build while the second one's
child process is still alive, leaving two live child processes for the same
rule (`execRaceTrace` final state has `live = [1, 2]`). -/
theorem C2_stale_cleanup_two_live_builds :
    (execRun execRaceTrace).map (fun s => s.live) = some [1, 2] := by
  decide

/-- Claim C3: every terminal tracker transition of the linked tracker
variant deletes nothing, creates its terminal marker, creates no other
marker-shaped file (the only other write is the `last-success-build-id`
pointer, which is not marker-shaped), and retains the building marker. -/
theorem C3_terminal_marker_audit (op : TerminalOp) (d : StatusDir) (ts ts0 : Int)
    (bid : Str) (hb : markerName ts0 bid ("building").toList ∈ fileNames d) :
    (∀ m ∈ fileNames d, m ∈ fileNames (applyTerminal op d ts bid)) ∧
    markerName ts bid (terminalStatus op) ∈ fileNames (applyTerminal op d ts bid) ∧
    (∀ m ∈ fileNames (applyTerminal op d ts bid),
      m ∈ fileNames d ∨ m = markerName ts bid (terminalStatus op) ∨
        m = ("last-success-build-id").toList) ∧
    markerName ts0 bid ("building").toList ∈ fileNames (applyTerminal op d ts bid) ∧
    isTerminalMarkerName (("last-success-build-id").toList) = false := by
  cases op <;>
    · simp only [applyTerminal, trackerComplete, trackerFail, trackerAbort, terminalStatus]
      refine ⟨fun m hm => ?_, ?_, fun m hm => ?_, ?_, by decide⟩ <;>
        simp only [mem_fileNames_writeFile] at * <;> tauto

/-- Witness for C3 at a concrete directory holding a building marker. -/
theorem C3_terminal_marker_audit_witness :
    markerName 10 ("abcd1234").toList ("building").toList ∈
      fileNames [((("10-abcd1234-building").toList : Str), ([] : Str))] ∧
    ((∀ m ∈ fileNames [((("10-abcd1234-building").toList : Str), ([] : Str))],
        m ∈ fileNames (applyTerminal TerminalOp.fail
          [((("10-abcd1234-building").toList : Str), ([] : Str))] 12 ("abcd1234").toList)) ∧
      markerName 12 ("abcd1234").toList (terminalStatus TerminalOp.fail) ∈
        fileNames (applyTerminal TerminalOp.fail
          [((("10-abcd1234-building").toList : Str), ([] : Str))] 12 ("abcd1234").toList) ∧
      (∀ m ∈ fileNames (applyTerminal TerminalOp.fail
          [((("10-abcd1234-building").toList : Str), ([] : Str))] 12 ("abcd1234").toList),
        m ∈ fileNames [((("10-abcd1234-building").toList : Str), ([] : Str))] ∨
          m = markerName 12 ("abcd1234").toList (terminalStatus TerminalOp.fail) ∨
          m = ("last-success-build-id").toList) ∧
      markerName 10 ("abcd1234").toList ("building").toList ∈
        fileNames (applyTerminal TerminalOp.fail
          [((("10-abcd1234-building").toList : Str), ([] : Str))] 12 ("abcd1234").toList) ∧
      isTerminalMarkerName (("last-success-build-id").toList) = false) :=
  ⟨by decide,
    C3_terminal_marker_audit TerminalOp.fail
      [((("10-abcd1234-building").toList : Str), ([] : Str))] 12 10
      ("abcd1234").toList (by decide)⟩

/-- Claim C4 (refuted by the code, which is the bug): with the debug flag
set and a backend running, the shutdown sequence still contains the
unconditional removal of the build-status directory; the `--debug` flag's
own help text (src/unnamed/part_002:42, "preserves build status files")
promises the opposite. -/
theorem C4_debug_shutdown_still_removes_dir :
    shutdownSteps true true =
      [ShutdownStep.cancelWatcher, ShutdownStep.stopBackend, ShutdownStep.removeStatusDir] ∧
    ∀ debugMode backendRunning,
      ShutdownStep.removeStatusDir ∈ shutdownSteps debugMode backendRunning := by
  refine ⟨by decide, ?_⟩
  intro debugMode backendRunning
  cases debugMode <;> cases backendRunning <;> decide

/-- Claim C5: a burst of triggers whose consecutive gaps are all below the
100 ms debounce delay produces exactly one dispatch, 100 ms after the last
trigger of the burst. -/
theorem C5_debounce_single_dispatch (ts : List Nat) (h1 : ts ≠ [])
    (h2 : ts.Chain' (fun a b => a ≤ b ∧ b < a + debounceDelayMs)) :
    debounceFires debounceDelayMs ts = [ts.getLast h1 + debounceDelayMs] := by
  induction ts with
  | nil => exact absurd rfl h1
  | cons t rest ih =>
    cases rest with
    | nil => simp [debounceFires]
    | cons t2 rest2 =>
      obtain ⟨⟨hab, hlt⟩, htail⟩ := List.chain'_cons.mp h2
      have hno : ¬ (t + debounceDelayMs ≤ t2) := by omega
      have hne : (t2 :: rest2) ≠ [] := by simp
      simp only [debounceFires, if_neg hno, List.nil_append]
      rw [ih hne htail]
      rw [List.getLast_cons hne]

/-- Witness for C5: three triggers 0, 50, 120 ms (gaps 50 and 70 ms) give
the single dispatch at 220 ms. -/
theorem C5_debounce_single_dispatch_witness :
    ([0, 50, 120] : List Nat) ≠ [] ∧
    List.Chain' (fun a b => a ≤ b ∧ b < a + debounceDelayMs) [0, 50, 120] ∧
    debounceFires debounceDelayMs [0, 50, 120] = [220] := by
  have h2 : List.Chain' (fun a b => a ≤ b ∧ b < a + debounceDelayMs) [0, 50, 120] := by
    simp [List.chain'_cons, List.chain'_singleton, debounceDelayMs]
  refine ⟨by decide, h2, ?_⟩
  have h := C5_debounce_single_dispatch [0, 50, 120] (by decide) h2
  simpa using h

/-- Claim C6, counterexample: with a walk visiting the hidden directory
`.cache`, the computed watch set contains `.cache` (a hidden subdirectory
that is not `.`), contradicting the claim that no hidden subdirectory is
included. -/
theorem C6_counterexample_hidden_dir_watched :
    (".cache").toList ∈ getDirectoriesToWatch
      [⟨(".").toList, true⟩, ⟨(".cache").toList, true⟩, ⟨("src").toList, true⟩]
      ("**/*.go").toList ∧
    hasPre ((".cache").toList) ((".").toList) = true ∧
    (".cache").toList ≠ (".").toList := by
  decide

/-- Claim C6 as amended: for a pattern containing `**`, the computed watch
set consists of the current directory plus exactly the walked directories
whose path does not begin with `.git` - hidden or not. -/
theorem C6_watch_dirs_characterization (walk : List WalkEntry) (pattern : Str)
    (h : goContains pattern ("**").toList = true) (d : Str) :
    d ∈ getDirectoriesToWatch walk pattern ↔
      d = ['.'] ∨ ∃ e ∈ walk, e.isDir = true ∧
        hasPre e.path ((".git").toList) = false ∧ e.path = d := by
  unfold getDirectoriesToWatch
  rw [if_pos h]
  simp only [List.mem_cons, List.mem_map, List.mem_filter, Bool.and_eq_true,
    Bool.not_eq_true']
  constructor
  · rintro (rfl | ⟨e, ⟨he, hdir, hgit⟩, rfl⟩)
    · exact Or.inl rfl
    · exact Or.inr ⟨e, he, hdir, hgit, rfl⟩
  · rintro (rfl | ⟨e, he, hdir, hgit, rfl⟩)
    · exact Or.inl rfl
    · exact Or.inr ⟨e, ⟨he, hdir, hgit⟩, rfl⟩

/-- Witness for C6 at the concrete walk of the counterexample; `.cache` is
in the watch set because it is a walked directory not beginning with
`.git`. -/
theorem C6_watch_dirs_characterization_witness :
    goContains (("**/*.go").toList) (("**").toList) = true ∧
    ((".cache").toList ∈ getDirectoriesToWatch
        [⟨(".").toList, true⟩, ⟨(".cache").toList, true⟩, ⟨("src").toList, true⟩]
        ("**/*.go").toList ↔
      (".cache").toList = ['.'] ∨
        ∃ e ∈ ([⟨(".").toList, true⟩, ⟨(".cache").toList, true⟩,
            ⟨("src").toList, true⟩] : List WalkEntry), e.isDir = true ∧
          hasPre e.path ((".git").toList) = false ∧ e.path = (".cache").toList) :=
  ⟨by decide,
    C6_watch_dirs_characterization
      [⟨(".").toList, true⟩, ⟨(".cache").toList, true⟩, ⟨("src").toList, true⟩]
      (("**/*.go").toList) (by decide) ((".cache").toList)⟩

/-- Claim C7 (refuted by the code, which is the bug): after a full
connect-then-disconnect session of the GET /__reload handler, the
subscriber channel is still registered in the monitor's reload-client set;
the handler's deferred cleanup is empty and `RemoveReloadClient` has no
caller, although the source's comment claims cleanup happens. -/
theorem C7_client_never_unregistered :
    clientsAfterSession [] 7 = [7] ∧ (7 : Nat) ∈ clientsAfterSession [] 7 := by
  decide

/-- Claim C8, counterexample: the pattern `a/**/**.go` contains two `**`
occurrences but only one `**/`, so the matcher takes the two-part branch,
not the basename fallback; on the path `a/b.go` the matcher returns true
while the basename fallback (matching `a/**.go` against `b.go`) is false. -/
theorem C8_counterexample_two_star_not_fallback :
    matchesPattern (("a/b.go").toList) (("a/**/**.go").toList) = true ∧
    goMatchB (replaceAllStr (("a/**/**.go").toList) (("**/").toList) [])
      (baseName (("a/b.go").toList)) = false := by
  decide

/-- Claim C8 as amended: the basename fallback is taken exactly for
patterns with more than one `**/` occurrence (splitting on `**/` yields at
least three parts); for those, the matcher returns the result of matching
the path's basename against the pattern with all `**/` removed. -/
theorem C8_multi_doubleslashstar_fallback (path pattern : Str)
    (h1 : goContains pattern (("**").toList) = true)
    (h2 : 3 ≤ (splitOnStr pattern (("**/").toList)).length) :
    matchesPattern path pattern =
      goMatchB (replaceAllStr pattern (("**/").toList) []) (baseName path) := by
  unfold matchesPattern
  rw [if_pos h1]
  have hne1 : ¬ ((splitOnStr pattern (("**/").toList)).length = 1) := by omega
  have hne2 : ¬ ((splitOnStr pattern (("**/").toList)).length = 2) := by omega
  simp only [hne1, hne2, if_false]

/-- Witness for C8: the pattern `**/**/*.go` splits on `**/` into three
parts, and on `x/y.go` the matcher equals the basename fallback. -/
theorem C8_multi_doubleslashstar_fallback_witness :
    goContains (("**/**/*.go").toList) (("**").toList) = true ∧
    3 ≤ (splitOnStr (("**/**/*.go").toList) (("**/").toList)).length ∧
    matchesPattern (("x/y.go").toList) (("**/**/*.go").toList) =
      goMatchB (replaceAllStr (("**/**/*.go").toList) (("**/").toList) [])
        (baseName (("x/y.go").toList)) :=
  ⟨by decide, by decide,
    C8_multi_doubleslashstar_fallback (("x/y.go").toList) (("**/**/*.go").toList)
      (by decide) (by decide)⟩

/-- Claim C9, counterexample: a single write of `"a\n"` (one
newline-terminated line) emits two prefixed lines, `"P a\n"` and the
spurious empty line `"P \n"` produced by the empty remainder of the split,
contradicting the claim of exactly one output line per complete line. -/
theorem C9_counterexample_extra_blank_line :
    (pwWrite ⟨("P ").toList, []⟩ (("a\n").toList)).2 =
      [("P a\n").toList, ("P \n").toList] ∧
    (pwWrite ⟨("P ").toList, []⟩ (("a\n").toList)).2.length ≠ 1 := by
  decide

/-- Claim C9 as amended: for a write ending in a newline, the writer emits
one prefixed line per part of the newline split of the accumulated input -
that is N + 1 lines for N newline-terminated lines, the extra one being
the empty remainder - and the buffer is left empty. -/
theorem C9_newline_write_emits_parts (pw : PrefixWriter) (p : Str)
    (h : endsNl p = true) :
    (pwWrite pw p).2 =
      (splitNl (pw.buffer ++ p)).map (fun line => pw.pre ++ line ++ ['\n']) ∧
    (pwWrite pw p).2.length = (pw.buffer ++ p).count '\n' + 1 ∧
    (pwWrite pw p).1.buffer = [] := by
  have hbuf : endsNl (pw.buffer ++ p) = true := endsNl_append pw.buffer p h
  unfold pwWrite
  simp [hbuf, h, splitNl, splitChar_length]

/-- Witness for C9: writing `"ok\n"` to a fresh writer with prefix `"B "`
emits the two split parts (`N = 1` newline) and empties the buffer. -/
theorem C9_newline_write_emits_parts_witness :
    endsNl (("ok\n").toList) = true ∧
    ((pwWrite ⟨("B ").toList, []⟩ (("ok\n").toList)).2 =
        (splitNl (([] : Str) ++ ("ok\n").toList)).map
          (fun line => ("B ").toList ++ line ++ ['\n']) ∧
      (pwWrite ⟨("B ").toList, []⟩ (("ok\n").toList)).2.length =
        (([] : Str) ++ ("ok\n").toList).count '\n' + 1 ∧
      (pwWrite ⟨("B ").toList, []⟩ (("ok\n").toList)).1.buffer = []) :=
  ⟨by decide, C9_newline_write_emits_parts ⟨("B ").toList, []⟩ (("ok\n").toList) (by decide)⟩

/-- Claim C10: when the status directory does not exist, or every entry of
the scan is skipped (a directory, fewer than three dash-separated parts,
one of the two pointer files, or a non-integer first part), the endpoint
body is exactly the empty JSON object with the `current_build` field
omitted. -/
theorem C10_no_record_empty_object (dirExists : Bool) (entries : List FileEntry)
    (h : dirExists = false ∨ ∀ e ∈ entries, entrySkipped e = true) :
    getCurrentBuildStatus dirExists entries = ("\x7b\x7d").toList := by
  rcases h with rfl | h
  · rfl
  · unfold getCurrentBuildStatus
    rw [foldl_scanEntry_none entries h]
    cases dirExists <;> rfl

/-- Witness for C10: a directory holding only the two pointer files and a
non-marker file yields the empty object. -/
theorem C10_no_record_empty_object_witness :
    (∀ e ∈ ([⟨("current-build-id").toList, false⟩,
        ⟨("last-success-build-id").toList, false⟩,
        ⟨("notes.txt").toList, false⟩] : List FileEntry), entrySkipped e = true) ∧
    getCurrentBuildStatus true
      [⟨("current-build-id").toList, false⟩,
        ⟨("last-success-build-id").toList, false⟩,
        ⟨("notes.txt").toList, false⟩] = ("\x7b\x7d").toList :=
  ⟨by decide,
    C10_no_record_empty_object true
      [⟨("current-build-id").toList, false⟩,
        ⟨("last-success-build-id").toList, false⟩,
        ⟨("notes.txt").toList, false⟩] (Or.inr (by decide))⟩

end Godevwatch
